import Mathlib

/-!
Shallow embedding of
`libs/community/langchain_community/retrievers/weaviate_hybrid_search.py`
(class `WeaviateHybridSearchRetriever`).

The external collaborators (the weaviate client and the embedding
provider) are not part of the repository; they are modelled as explicit
parameters: a collection-existence oracle and a creation trace for
construction, and an `embed_query` function plus a hybrid-query function
for search, following the backing-store client interface of the spec
(existence check, creation from a schema description, hybrid query).
Python exceptions are modelled with `Except`; in-place mutation of the
response objects is modelled by returning their final state.
-/

namespace WeaviateHybrid

/-- Property values carried in a raw result record (Python objects stored
in the `properties` dict of a weaviate response object). The retriever
never inspects these values, it only moves them around. -/
inductive Value where
  | str : String → Value
  | int : Int → Value
  | rat : ℚ → Value
  | bool : Bool → Value
  | none : Value
deriving DecidableEq

/-- A property mapping: a Python dict as an ordered association list
(Python dicts preserve insertion order and have unique keys). -/
abbrev Props := List (String × Value)

/-- Python `d.pop(key)` with no default: returns the value stored at the
first occurrence of `key` together with the mapping with that entry
removed (preserving the order of the other entries), or `none` when the
key is absent (Python raises `KeyError`). -/
def popProp (key : String) : Props → Option (Value × Props)
  | [] => Option.none
  | (k, v) :: rest =>
    if k = key then some (v, rest)
    else
      match popProp key rest with
      | Option.none => Option.none
      | some (v2, rest2) => some (v2, (k, v) :: rest2)

/-- A raw result record returned by the backing store: an object with a
property mapping (`o.properties`). -/
structure SearchObject where
  properties : Props
deriving DecidableEq

/-- The backing store's response to a hybrid query (`result.objects`). -/
structure SearchResult where
  objects : List SearchObject
deriving DecidableEq

/-- Errors raised by the code or propagated from collaborators. -/
inductive Err where
  | importError
  | valueError
  | typeError
  | keyError (key : String)
  | providerError (msg : String)
  | storeError (msg : String)
deriving DecidableEq

/-- A document produced by the result mapper: `Document(page_content=text,
metadata=o.properties)`. -/
structure Document where
  page_content : Value
  metadata : Props
deriving DecidableEq

/-- The retriever's configuration fields (the pydantic fields of
`WeaviateHybridSearchRetriever`; the client and embedding collaborators
are passed explicitly to the operations). `alpha` defaults to 0.5 and `k`
to 4 in the source. -/
structure WeaviateHybridSearchRetriever where
  index_name : String
  text_key : String
  alpha : ℚ := 1 / 2
  k : Int := 4
deriving DecidableEq

/-- A declared field of a collection schema (`{"name": ..., "dataType": [...]}`). -/
structure SchemaProp where
  name : String
  dataType : List String
deriving DecidableEq

/-- A collection schema dict (`{"class": ..., "properties": [...]}`). -/
structure Schema where
  «class» : String
  properties : List SchemaProp
deriving DecidableEq

/-- The `values` dict seen by the root validator, reduced to what the
validator reads: whether `values["client"]` is a `weaviate.WeaviateClient`
instance, plus the configured names. -/
structure Values where
  client_is_weaviate : Bool
  index_name : String
  text_key : String
deriving DecidableEq

/-- Embedding of `WeaviateHybridSearchRetriever.validate_client`, the
`root_validator(pre=True)` that runs at construction.
`weaviateAvailable` models whether `import weaviate` succeeds;
`collectionExists` models `client.collections.exists`. Returns the
validated values (or the raised error) together with the trace of
`client.collections.create_from_dict` calls issued, in order. -/
def validate_client (weaviateAvailable : Bool) (collectionExists : String → Bool)
    (values : Values) : Except Err Values × List Schema :=
  if ¬ weaviateAvailable then (.error .importError, [])
  else if ¬ values.client_is_weaviate then (.error .valueError, [])
  else
    let schema : Schema :=
      { «class» := values.index_name,
        properties := [{ name := values.text_key, dataType := ["text"] }] }
    if collectionExists values.index_name then (.ok values, [])
    else (.ok values, [schema])

/-- A keyword-argument value of the hybrid call. The fixed keywords carry
typed values (query text, limit, alpha, vector); entries coming from
`hybrid_search_kwargs` carry arbitrary property values. -/
inductive Arg where
  | str : String → Arg
  | int : Int → Arg
  | rat : ℚ → Arg
  | vec : List ℚ → Arg
  | val : Value → Arg
deriving DecidableEq

/-- A hybrid-search request: the keyword arguments of
`query_obj.query.hybrid(...)`, in order. -/
abbrev HybridRequest := List (String × Arg)

/-- The keyword names passed explicitly by the source to
`query_obj.query.hybrid`. A `hybrid_search_kwargs` entry reusing one of
these raises `TypeError` at the call site in Python. -/
def fixedKeys : List String := ["query", "limit", "alpha", "vector"]

/-- The fixed part of the hybrid request:
`hybrid(query=query, limit=self.k, alpha=self.alpha, vector=query_vector, ...)`. -/
def fixedArgs (query : String) (limit : Int) (alpha : ℚ) (vector : List ℚ) :
    HybridRequest :=
  [("query", .str query), ("limit", .int limit), ("alpha", .rat alpha),
    ("vector", .vec vector)]

/-- The result-mapping loop of `_get_relevant_documents`:

    for o in result.objects:
        text = o.properties.pop(self.text_key)
        docs.append(Document(page_content=text, metadata=o.properties))

Returns the outcome (the document list, or the `KeyError` raised by `pop`
when an object lacks the text key) together with the final state of the
response objects: `pop` mutates each object's property mapping in place,
so objects processed before a failure stay mutated while the failing
object and the ones after it keep their original properties. -/
def mapResults (text_key : String) :
    List SearchObject → Except Err (List Document) × List SearchObject
  | [] => (.ok [], [])
  | o :: rest =>
    match popProp text_key o.properties with
    | Option.none => (.error (.keyError text_key), o :: rest)
    | some (text, remaining) =>
      let out := mapResults text_key rest
      (match out.1 with
        | .ok docs => .ok ({ page_content := text, metadata := remaining } :: docs)
        | .error e => .error e,
        { properties := remaining } :: out.2)

/-- The outcome of one `_get_relevant_documents` invocation: the returned
document list or raised error, the trace of hybrid-query requests issued
to the backing store (in order), and the final state of the backing
store's response objects (which the mapping loop mutates in place). -/
structure SearchOutcome where
  result : Except Err (List Document)
  issuedRequests : List HybridRequest
  finalObjects : List SearchObject

/-- Embedding of `WeaviateHybridSearchRetriever._get_relevant_documents`.

`embed_query` models the configured embedding provider's `embed_query`
(it may raise); `hybrid` models the backing store's hybrid-query
operation on the collection named `self.index_name` (it may raise). The
preceding `self.client.collections.get(self.index_name)` retrieves a
local collection handle; the backing-store operations proper are the
existence check, collection creation and the hybrid query, and none of
them is invoked by that line.

The source builds the call
`hybrid(query=query, limit=self.k, alpha=self.alpha, vector=query_vector,
**hybrid_search_kwargs)`; a kwargs entry whose key repeats one of the
fixed keyword names makes the Python call raise `TypeError` before any
request is issued. -/
def get_relevant_documents (self : WeaviateHybridSearchRetriever)
    (embed_query : String → Except Err (List ℚ))
    (hybrid : HybridRequest → Except Err SearchResult)
    (query : String)
    (hybrid_search_kwargs : Option (List (String × Value))) : SearchOutcome :=
  match embed_query query with
  | .error e => { result := .error e, issuedRequests := [], finalObjects := [] }
  | .ok query_vector =>
    let kw := hybrid_search_kwargs.getD []
    if kw.any (fun p => fixedKeys.contains p.1) then
      { result := .error .typeError, issuedRequests := [], finalObjects := [] }
    else
      let req : HybridRequest :=
        fixedArgs query self.k self.alpha query_vector
          ++ kw.map (fun p => (p.1, Arg.val p.2))
      match hybrid req with
      | .error e => { result := .error e, issuedRequests := [req], finalObjects := [] }
      | .ok result =>
        let out := mapResults self.text_key result.objects
        { result := out.1, issuedRequests := [req], finalObjects := out.2 }

/-- Characterization of `popProp` by the standard association-list
operations: it returns the first value bound to the key together with the
list with that first binding erased. -/
theorem popProp_eq (key : String) (props : Props) :
    popProp key props =
      (List.lookup key props).map
        (fun v => (v, props.eraseP (fun p => p.1 == key))) := by
  induction props with
  | nil => rfl
  | cons hd tl ih =>
    obtain ⟨k, v⟩ := hd
    by_cases h : k = key
    · subst h
      simp [popProp, List.lookup, List.eraseP]
    · have h2 : (key == k) = false := by
        simp [Ne.symm h]
      have h3 : (k == key) = false := by
        simp [h]
      simp only [popProp, List.lookup, List.eraseP, h2, h3, if_neg h, cond_false, ih]
      cases List.lookup key tl with
      | none => rfl
      | some v2 => rfl

/-- A key is absent from a property mapping exactly when no entry carries it. -/
theorem lookup_eq_none_iff (key : String) (props : Props) :
    List.lookup key props = Option.none ↔ ∀ p ∈ props, p.1 ≠ key := by
  induction props with
  | nil => simp
  | cons hd tl ih =>
    obtain ⟨k, v⟩ := hd
    by_cases h : key = k
    · subst h
      simp [List.lookup]
    · have h2 : (key == k) = false := by simp [h]
      simp only [List.lookup, h2, List.mem_cons]
      rw [ih]
      constructor
      · intro hall p hp
        rcases hp with hp | hp
        · subst hp
          exact Ne.symm h
        · exact hall p hp
      · intro hall p hp
        exact hall p (Or.inr hp)

/-- Erasing the binding of `key` from a mapping with pairwise-distinct
keys leaves no entry carrying `key`. -/
theorem eraseP_key_not_mem (key : String) (props : Props)
    (hnd : (props.map Prod.fst).Nodup) :
    ∀ p ∈ props.eraseP (fun q => q.1 == key), p.1 ≠ key := by
  induction props with
  | nil => simp
  | cons hd tl ih =>
    obtain ⟨k, v⟩ := hd
    simp only [List.map_cons, List.nodup_cons] at hnd
    obtain ⟨hk, hnd2⟩ := hnd
    by_cases h : k = key
    · subst h
      have herase : ((k, v) :: tl).eraseP (fun q => q.1 == k) = tl := by
        simp [List.eraseP_cons]
      rw [herase]
      intro p hp hpk
      exact hk (hpk ▸ List.mem_map_of_mem Prod.fst hp)
    · have h3 : ((k, v).1 == key) = false := by simp [h]
      rw [List.eraseP_cons, h3, cond_false]
      intro p hp
      rcases List.mem_cons.mp hp with hp | hp
      · subst hp
        exact h
      · exact ih hnd2 p hp

/-- When every record carries the text key, the mapping loop succeeds and
acts as a map over the records: each document's text is the value bound
to the key and its metadata is the record's mapping with that binding
erased; each record's final property mapping equals its metadata. -/
theorem mapResults_of_all (key : String) (objs : List SearchObject)
    (h : ∀ o ∈ objs, (List.lookup key o.properties).isSome) :
    mapResults key objs =
      (.ok (objs.map fun o =>
          { page_content := (List.lookup key o.properties).getD Value.none,
            metadata := o.properties.eraseP (fun p => p.1 == key) }),
       objs.map fun o =>
          ({ properties := o.properties.eraseP (fun p => p.1 == key) } :
            SearchObject)) := by
  induction objs with
  | nil => rfl
  | cons o tl ih =>
    have ho := h o (List.mem_cons_self o tl)
    obtain ⟨v, hv⟩ := Option.isSome_iff_exists.mp ho
    have hpop : popProp key o.properties =
        some (v, o.properties.eraseP (fun p => p.1 == key)) := by
      rw [popProp_eq, hv]
      rfl
    have htl := ih (fun o2 ho2 => h o2 (List.mem_cons_of_mem o ho2))
    simp only [mapResults, hpop, htl, List.map_cons, hv, Option.getD_some]

/-- The mapping loop returns a document list only when every record
carries the text key. -/
theorem mapResults_ok_inv (key : String) (objs : List SearchObject)
    (docs : List Document) (h : (mapResults key objs).1 = .ok docs) :
    ∀ o ∈ objs, (List.lookup key o.properties).isSome := by
  induction objs generalizing docs with
  | nil => simp
  | cons o tl ih =>
    intro o2 ho2
    cases hpop : popProp key o.properties with
    | none =>
      rw [mapResults, hpop] at h
      exact absurd h (by simp)
    | some pr =>
      obtain ⟨v, rest⟩ := pr
      simp only [mapResults, hpop] at h
      cases htl : (mapResults key tl).1 with
      | error e =>
        rw [htl] at h
        exact absurd h (by simp)
      | ok docs2 =>
        rcases List.mem_cons.mp ho2 with heq | hmem
        · subst heq
          rw [popProp_eq] at hpop
          cases hlk : List.lookup key o2.properties with
          | none =>
            rw [hlk] at hpop
            exact absurd hpop (by simp)
          | some v2 => rfl
        · exact ih docs2 htl o2 hmem

/-- When some record lacks the text key, the mapping loop raises the
key error for that key (whichever record fails first). -/
theorem mapResults_err (key : String) (objs : List SearchObject)
    (h : ∃ o ∈ objs, List.lookup key o.properties = Option.none) :
    (mapResults key objs).1 = .error (.keyError key) := by
  induction objs with
  | nil => simp at h
  | cons o tl ih =>
    cases hpop : popProp key o.properties with
    | none =>
      rw [mapResults, hpop]
    | some pr =>
      obtain ⟨v, rest⟩ := pr
      have hin : ∃ o2 ∈ tl, List.lookup key o2.properties = Option.none := by
        rcases h with ⟨o2, ho2, hnone⟩
        rcases List.mem_cons.mp ho2 with heq | hmem
        · subst heq
          rw [popProp_eq, hnone] at hpop
          exact absurd hpop (by simp)
        · exact ⟨o2, hmem, hnone⟩
      have htl := ih hin
      rw [mapResults, hpop]
      simp only [htl]

/-- Sample configuration used by the concrete witnesses. -/
def sampleRetriever : WeaviateHybridSearchRetriever :=
  { index_name := "LangChain", text_key := "text", alpha := 1 / 2, k := 4 }

/-- Sample backing-store response used by the concrete witnesses: two raw
records, each carrying the text field plus one other field. -/
def sampleResult : SearchResult :=
  { objects :=
      [ { properties := [("text", .str "foo"), ("page", .int 1)] },
        { properties := [("source", .str "s2"), ("text", .str "bar")] } ] }

/-- Sample embedding provider used by the concrete witnesses. -/
def sampleEmbed : String → Except Err (List ℚ) := fun _ => .ok [1, 0]

/-- Sample `values` dict used by the concrete witnesses. -/
def sampleValues : Values :=
  { client_is_weaviate := true, index_name := "LangChain", text_key := "text" }

/-- C2: if the embedding provider's `embed_query` raises, search raises
propagating that error and issues no hybrid-search request to the
backing store. -/
theorem C2_embed_error_no_store_call (self : WeaviateHybridSearchRetriever)
    (embed_query : String → Except Err (List ℚ))
    (hybrid : HybridRequest → Except Err SearchResult) (query : String)
    (kwargs : Option (List (String × Value))) (e : Err)
    (hemb : embed_query query = .error e) :
    (get_relevant_documents self embed_query hybrid query kwargs).result
        = .error e ∧
    (get_relevant_documents self embed_query hybrid query kwargs).issuedRequests
        = [] := by
  unfold get_relevant_documents
  rw [hemb]
  exact ⟨rfl, rfl⟩

/-- Witness for C2 at a concrete retriever, provider error and store. -/
theorem C2_embed_error_no_store_call_witness :
    (get_relevant_documents sampleRetriever
        (fun _ => .error (.providerError "down")) (fun _ => .ok sampleResult)
        "q" Option.none).result = .error (.providerError "down") ∧
    (get_relevant_documents sampleRetriever
        (fun _ => .error (.providerError "down")) (fun _ => .ok sampleResult)
        "q" Option.none).issuedRequests = [] :=
  C2_embed_error_no_store_call sampleRetriever _ _ "q" Option.none _ rfl

/-- C4: when the named collection does not exist, construction creates it
from a schema whose class is the configured index name and whose property
list has exactly one field, named by the configured text key, with data
type text. -/
theorem C4_creates_collection (collectionExists : String → Bool)
    (values : Values) (hcli : values.client_is_weaviate = true)
    (hne : collectionExists values.index_name = false) :
    validate_client true collectionExists values =
      (.ok values,
        [{ «class» := values.index_name,
           properties := [{ name := values.text_key, dataType := ["text"] }] }]) := by
  unfold validate_client
  simp [hcli, hne]

/-- Witness for C4 at a concrete configuration with an absent collection. -/
theorem C4_creates_collection_witness :
    validate_client true (fun _ => false) sampleValues =
      (.ok sampleValues,
        [{ «class» := sampleValues.index_name,
           properties :=
             [{ name := sampleValues.text_key, dataType := ["text"] }] }]) :=
  C4_creates_collection (fun _ => false) sampleValues rfl rfl

/-- C5: when the named collection already exists, construction succeeds
and issues no collection-creation call. -/
theorem C5_existing_collection_untouched (collectionExists : String → Bool)
    (values : Values) (hcli : values.client_is_weaviate = true)
    (hex : collectionExists values.index_name = true) :
    validate_client true collectionExists values = (.ok values, []) := by
  unfold validate_client
  simp [hcli, hex]

/-- Witness for C5 at a concrete configuration with an existing collection. -/
theorem C5_existing_collection_untouched_witness :
    validate_client true (fun _ => true) sampleValues = (.ok sampleValues, []) :=
  C5_existing_collection_untouched (fun _ => true) sampleValues rfl rfl

/-- C7: construction raises an import error when the weaviate dependency
is missing, and a value error when the supplied client is not a weaviate
client instance; in both cases no validated values are produced and no
collection is created. -/
theorem C7_construction_raises_on_bad_config (collectionExists : String → Bool)
    (values : Values) :
    validate_client false collectionExists values = (.error .importError, []) ∧
    (values.client_is_weaviate = false →
      validate_client true collectionExists values = (.error .valueError, [])) := by
  constructor
  · unfold validate_client
    simp
  · intro h
    unfold validate_client
    simp [h]

/-- Witness for C7 at a concrete configuration with a non-weaviate client. -/
theorem C7_construction_raises_on_bad_config_witness :
    validate_client false (fun _ => false)
        { client_is_weaviate := false, index_name := "LangChain",
          text_key := "text" } = (.error .importError, []) ∧
    validate_client true (fun _ => false)
        { client_is_weaviate := false, index_name := "LangChain",
          text_key := "text" } = (.error .valueError, []) :=
  ⟨(C7_construction_raises_on_bad_config (fun _ => false) _).1,
    (C7_construction_raises_on_bad_config (fun _ => false)
      { client_is_weaviate := false, index_name := "LangChain",
        text_key := "text" }).2 rfl⟩

/-- The blend weight sits in the request under the keyword `alpha`,
whatever extra entries follow. -/
theorem lookup_alpha_fixedArgs (query : String) (lim : Int) (alpha : ℚ)
    (vector : List ℚ) (extras : HybridRequest) :
    List.lookup "alpha" (fixedArgs query lim alpha vector ++ extras)
      = some (Arg.rat alpha) := rfl

/-- The result limit sits in the request under the keyword `limit`,
whatever extra entries follow. -/
theorem lookup_limit_fixedArgs (query : String) (lim : Int) (alpha : ℚ)
    (vector : List ℚ) (extras : HybridRequest) :
    List.lookup "limit" (fixedArgs query lim alpha vector ++ extras)
      = some (Arg.int lim) := rfl

/-- Every hybrid request issued by a search invocation is built from the
fixed keywords followed by the kwargs entries. -/
theorem issued_request_shape (self : WeaviateHybridSearchRetriever)
    (embed_query : String → Except Err (List ℚ))
    (hybrid : HybridRequest → Except Err SearchResult) (query : String)
    (kwargs : Option (List (String × Value))) (req : HybridRequest)
    (hreq : req ∈ (get_relevant_documents self embed_query hybrid query
        kwargs).issuedRequests) :
    ∃ query_vector, embed_query query = .ok query_vector ∧
      (kwargs.getD []).any (fun p => fixedKeys.contains p.1) = false ∧
      req = fixedArgs query self.k self.alpha query_vector
        ++ (kwargs.getD []).map (fun p => (p.1, Arg.val p.2)) := by
  cases hemb : embed_query query with
  | error e =>
    unfold get_relevant_documents at hreq
    rw [hemb] at hreq
    exact absurd hreq (by simp)
  | ok query_vector =>
    refine ⟨query_vector, rfl, ?_⟩
    unfold get_relevant_documents at hreq
    rw [hemb] at hreq
    cases hkw : (kwargs.getD []).any (fun p => fixedKeys.contains p.1) with
    | true =>
      simp only [hkw, if_true] at hreq
      exact absurd hreq (by simp)
    | false =>
      refine ⟨rfl, ?_⟩
      simp only [hkw, Bool.false_eq_true, if_false] at hreq
      cases hh : hybrid (fixedArgs query self.k self.alpha query_vector
          ++ (kwargs.getD []).map (fun p => (p.1, Arg.val p.2))) with
      | error e =>
        rw [hh] at hreq
        simpa using hreq
      | ok result =>
        rw [hh] at hreq
        simpa using hreq

/-- C3: every hybrid request a search invocation issues to the backing
store carries exactly the configured blend weight under `alpha` and the
configured result limit under `limit`, unchanged. -/
theorem C3_alpha_k_pass_through (self : WeaviateHybridSearchRetriever)
    (embed_query : String → Except Err (List ℚ))
    (hybrid : HybridRequest → Except Err SearchResult) (query : String)
    (kwargs : Option (List (String × Value))) (req : HybridRequest)
    (hreq : req ∈ (get_relevant_documents self embed_query hybrid query
        kwargs).issuedRequests) :
    List.lookup "alpha" req = some (Arg.rat self.alpha) ∧
    List.lookup "limit" req = some (Arg.int self.k) := by
  obtain ⟨query_vector, hemb, hkw, hshape⟩ :=
    issued_request_shape self embed_query hybrid query kwargs req hreq
  subst hshape
  exact ⟨lookup_alpha_fixedArgs _ _ _ _ _, lookup_limit_fixedArgs _ _ _ _ _⟩

/-- Witness for C3 at a concrete invocation with one extra kwargs entry. -/
theorem C3_alpha_k_pass_through_witness :
    List.lookup "alpha"
        (fixedArgs "q" (4 : Int) (1 / 2 : ℚ) [1, 0]
          ++ [("fusion_type", Arg.val (Value.str "ranked"))])
      = some (Arg.rat sampleRetriever.alpha) ∧
    List.lookup "limit"
        (fixedArgs "q" (4 : Int) (1 / 2 : ℚ) [1, 0]
          ++ [("fusion_type", Arg.val (Value.str "ranked"))])
      = some (Arg.int sampleRetriever.k) :=
  C3_alpha_k_pass_through sampleRetriever sampleEmbed (fun _ => .ok sampleResult)
    "q" (some [("fusion_type", Value.str "ranked")]) _
    (List.mem_singleton_self _)

/-- C6: when the backing store's hybrid query raises, search raises that
same error unchanged, issues exactly one hybrid request (no retry), and
returns no partial document list. -/
theorem C6_store_error_propagates (self : WeaviateHybridSearchRetriever)
    (embed_query : String → Except Err (List ℚ)) (query : String)
    (kwargs : Option (List (String × Value))) (e : Err)
    (query_vector : List ℚ) (hemb : embed_query query = .ok query_vector)
    (hkw : (kwargs.getD []).any (fun p => fixedKeys.contains p.1) = false) :
    (get_relevant_documents self embed_query (fun _ => .error e) query
        kwargs).result = .error e ∧
    (get_relevant_documents self embed_query (fun _ => .error e) query
        kwargs).issuedRequests.length = 1 := by
  unfold get_relevant_documents
  rw [hemb]
  simp only [hkw, Bool.false_eq_true, if_false]
  exact ⟨trivial, rfl⟩

/-- Witness for C6 at a concrete invocation whose store raises. -/
theorem C6_store_error_propagates_witness :
    (get_relevant_documents sampleRetriever sampleEmbed
        (fun _ => .error (.storeError "boom")) "q" Option.none).result
      = .error (.storeError "boom") ∧
    (get_relevant_documents sampleRetriever sampleEmbed
        (fun _ => .error (.storeError "boom")) "q"
        Option.none).issuedRequests.length = 1 :=
  C6_store_error_propagates sampleRetriever sampleEmbed "q" Option.none
    (.storeError "boom") [1, 0] rfl rfl

/-- C8: with no extra-options mapping the issued hybrid request carries
exactly the four fixed parameters; with a mapping supplied (whose keys do
not clash with the fixed keywords) the issued request is the fixed
parameters followed by every entry of the mapping, so each entry of the
mapping appears in the request. -/
theorem C8_kwargs_merged (self : WeaviateHybridSearchRetriever)
    (embed_query : String → Except Err (List ℚ))
    (hybrid : HybridRequest → Except Err SearchResult) (query : String)
    (query_vector : List ℚ) (hemb : embed_query query = .ok query_vector) :
    (∀ req ∈ (get_relevant_documents self embed_query hybrid query
        Option.none).issuedRequests,
      req = fixedArgs query self.k self.alpha query_vector) ∧
    (∀ kw, (kw.any fun p => fixedKeys.contains p.1) = false →
      ∀ req ∈ (get_relevant_documents self embed_query hybrid query
          (some kw)).issuedRequests,
        req = fixedArgs query self.k self.alpha query_vector
            ++ kw.map (fun p => (p.1, Arg.val p.2)) ∧
        ∀ p ∈ kw, (p.1, Arg.val p.2) ∈ req) := by
  constructor
  · intro req hreq
    obtain ⟨v2, hemb2, _, hshape⟩ :=
      issued_request_shape self embed_query hybrid query Option.none req hreq
    rw [hemb] at hemb2
    cases hemb2
    simpa using hshape
  · intro kw hkw req hreq
    obtain ⟨v2, hemb2, _, hshape⟩ :=
      issued_request_shape self embed_query hybrid query (some kw) req hreq
    rw [hemb] at hemb2
    cases hemb2
    simp only [Option.getD_some] at hshape
    refine ⟨hshape, ?_⟩
    intro p hp
    rw [hshape]
    exact List.mem_append_right _ (List.mem_map_of_mem _ hp)

/-- Witness for C8 at a concrete invocation, with and without kwargs. -/
theorem C8_kwargs_merged_witness :
    (∀ req ∈ (get_relevant_documents sampleRetriever sampleEmbed
        (fun _ => .ok sampleResult) "q" Option.none).issuedRequests,
      req = fixedArgs "q" sampleRetriever.k sampleRetriever.alpha [1, 0]) ∧
    (∀ kw, (kw.any fun p => fixedKeys.contains p.1) = false →
      ∀ req ∈ (get_relevant_documents sampleRetriever sampleEmbed
          (fun _ => .ok sampleResult) "q" (some kw)).issuedRequests,
        req = fixedArgs "q" sampleRetriever.k sampleRetriever.alpha [1, 0]
            ++ kw.map (fun p => (p.1, Arg.val p.2)) ∧
        ∀ p ∈ kw, (p.1, Arg.val p.2) ∈ req) :=
  C8_kwargs_merged sampleRetriever sampleEmbed (fun _ => .ok sampleResult)
    "q" [1, 0] rfl

/-- C1: when every raw record contains the configured text field, search
returns exactly as many documents as records, in order; each document's
text is the value bound to the text field of the corresponding record and
its metadata is that record's property mapping with the text field's
binding erased, verbatim. -/
theorem C1_result_mapping (self : WeaviateHybridSearchRetriever)
    (embed_query : String → Except Err (List ℚ)) (query : String)
    (query_vector : List ℚ) (res : SearchResult)
    (hemb : embed_query query = .ok query_vector)
    (hkey : ∀ o ∈ res.objects,
        (List.lookup self.text_key o.properties).isSome) :
    ∃ docs,
      (get_relevant_documents self embed_query (fun _ => .ok res) query
          Option.none).result = .ok docs ∧
      docs.length = res.objects.length ∧
      ∀ i, ∀ h1 : i < res.objects.length, ∀ h2 : i < docs.length,
        List.lookup self.text_key (res.objects[i]).properties
          = some (docs[i]).page_content ∧
        (docs[i]).metadata
          = ((res.objects[i]).properties).eraseP
              (fun p => p.1 == self.text_key) := by
  have hmap := mapResults_of_all self.text_key res.objects hkey
  refine ⟨res.objects.map (fun o =>
      { page_content := (List.lookup self.text_key o.properties).getD Value.none,
        metadata := o.properties.eraseP (fun p => p.1 == self.text_key) }),
    ?_, ?_, ?_⟩
  · unfold get_relevant_documents
    rw [hemb]
    simp only [Option.getD_none, List.any_nil, Bool.false_eq_true, if_false, hmap]
  · simp
  · intro i h1 h2
    simp only [List.getElem_map]
    obtain ⟨v, hv⟩ := Option.isSome_iff_exists.mp
      (hkey (res.objects[i]) (List.getElem_mem h1))
    refine ⟨?_, trivial⟩
    rw [hv]
    rfl

/-- Witness for C1 at a concrete invocation returning two records. -/
theorem C1_result_mapping_witness :
    ∃ docs,
      (get_relevant_documents sampleRetriever sampleEmbed
          (fun _ => .ok sampleResult) "q" Option.none).result = .ok docs ∧
      docs.length = sampleResult.objects.length ∧
      ∀ i, ∀ h1 : i < sampleResult.objects.length, ∀ h2 : i < docs.length,
        List.lookup sampleRetriever.text_key
            (sampleResult.objects[i]).properties
          = some (docs[i]).page_content ∧
        (docs[i]).metadata
          = ((sampleResult.objects[i]).properties).eraseP
              (fun p => p.1 == sampleRetriever.text_key) :=
  C1_result_mapping sampleRetriever sampleEmbed "q" [1, 0] sampleResult rfl
    (by decide)

/-- C9: after a successful search, the backing store's response objects
have been mutated in place: each raw record's property mapping is now its
original mapping with the text field's binding erased, so (keys being
unique in a property mapping) no record still contains the text field. -/
theorem C9_pop_mutates_records (self : WeaviateHybridSearchRetriever)
    (embed_query : String → Except Err (List ℚ)) (query : String)
    (res : SearchResult) (docs : List Document)
    (hnd : ∀ o ∈ res.objects, (o.properties.map Prod.fst).Nodup)
    (hok : (get_relevant_documents self embed_query (fun _ => .ok res) query
        Option.none).result = .ok docs) :
    (get_relevant_documents self embed_query (fun _ => .ok res) query
        Option.none).finalObjects
      = res.objects.map (fun o =>
          ({ properties :=
              o.properties.eraseP (fun p => p.1 == self.text_key) } :
            SearchObject)) ∧
    ∀ o ∈ (get_relevant_documents self embed_query (fun _ => .ok res) query
        Option.none).finalObjects,
      ∀ p ∈ o.properties, p.1 ≠ self.text_key := by
  cases hemb : embed_query query with
  | error e =>
    unfold get_relevant_documents at hok
    rw [hemb] at hok
    exact absurd hok (by simp)
  | ok query_vector =>
    unfold get_relevant_documents at hok ⊢
    rw [hemb] at hok ⊢
    simp only [Option.getD_none, List.any_nil, Bool.false_eq_true, if_false]
      at hok ⊢
    have hall := mapResults_ok_inv self.text_key res.objects docs hok
    have hmap := mapResults_of_all self.text_key res.objects hall
    rw [hmap]
    refine ⟨rfl, ?_⟩
    intro o ho p hp
    obtain ⟨o0, ho0, rfl⟩ := List.mem_map.mp ho
    exact eraseP_key_not_mem self.text_key o0.properties (hnd o0 ho0) p hp

/-- Witness for C9 at a concrete invocation returning two records. -/
theorem C9_pop_mutates_records_witness :
    (get_relevant_documents sampleRetriever sampleEmbed
        (fun _ => .ok sampleResult) "q" Option.none).finalObjects
      = sampleResult.objects.map (fun o =>
          ({ properties :=
              o.properties.eraseP
                (fun p => p.1 == sampleRetriever.text_key) } :
            SearchObject)) ∧
    ∀ o ∈ (get_relevant_documents sampleRetriever sampleEmbed
        (fun _ => .ok sampleResult) "q" Option.none).finalObjects,
      ∀ p ∈ o.properties, p.1 ≠ sampleRetriever.text_key :=
  C9_pop_mutates_records sampleRetriever sampleEmbed "q" sampleResult
    [{ page_content := .str "foo", metadata := [("page", .int 1)] },
      { page_content := .str "bar", metadata := [("source", .str "s2")] }]
    (by decide) rfl

/-- C10: when some raw record lacks the configured text field, search
raises the key error for that field and returns no document list. -/
theorem C10_missing_text_key_raises (self : WeaviateHybridSearchRetriever)
    (embed_query : String → Except Err (List ℚ)) (query : String)
    (kwargs : Option (List (String × Value))) (query_vector : List ℚ)
    (res : SearchResult) (hemb : embed_query query = .ok query_vector)
    (hkw : (kwargs.getD []).any (fun p => fixedKeys.contains p.1) = false)
    (hmiss : ∃ o ∈ res.objects, ∀ p ∈ o.properties, p.1 ≠ self.text_key) :
    (get_relevant_documents self embed_query (fun _ => .ok res) query
        kwargs).result = .error (.keyError self.text_key) := by
  unfold get_relevant_documents
  rw [hemb]
  simp only [hkw, Bool.false_eq_true, if_false]
  apply mapResults_err
  obtain ⟨o, ho, hnone⟩ := hmiss
  exact ⟨o, ho, (lookup_eq_none_iff self.text_key o.properties).mpr hnone⟩

/-- Sample backing-store response whose single record lacks the text field. -/
def sampleResultMissing : SearchResult :=
  { objects := [ { properties := [("page", .int 7)] } ] }

/-- Witness for C10 at a concrete invocation whose record lacks the field. -/
theorem C10_missing_text_key_raises_witness :
    (get_relevant_documents sampleRetriever sampleEmbed
        (fun _ => .ok sampleResultMissing) "q" Option.none).result
      = .error (.keyError sampleRetriever.text_key) :=
  C10_missing_text_key_raises sampleRetriever sampleEmbed "q" Option.none
    [1, 0] sampleResultMissing rfl rfl (by decide)

end WeaviateHybrid
